import Mathlib

/-!
Verification of the routerman routing/dispatch core.

A shallow embedding, in Lean 4, of the routing and dispatch code of the
`routerman` repository (a minimal HTTP routing framework built on hyper),
together with theorems settling the specification claims about it.

The embedding follows the Rust source file by file:

* `src/method.rs`      — `MethodRouter`, its `Allow`-header maintenance,
  `merge`, and the dispatch closure built by `From<MethodRouter> for Route`;
* `src/router.rs`      — `RequestService::call` (path lookup, trailing-slash
  near misses, parameter decoding, default route), `replace_path`, and the
  `RequestFuture` state machine;
* `src/request/ext.rs` — percent-decoding of raw path-parameter captures
  (`TryFrom<matchit::Params> for RouteParamsExt`);
* `src/response/*`     — the `IntoResponse`/`Reply` conversion protocol, the
  tuple composition of response parts, and the default error formatter.

Modelling conventions: handlers are opaque to the routing logic, so a `Route`
is identified by a `RouteId := Nat`.  HTTP machine integers are `Nat`.  Rust
byte strings are `List Nat` (each element < 256) where byte-level behaviour
matters (percent-decoding, UTF-8 validation); elsewhere Rust `String` is Lean
`String`, with the few string primitives the code needs re-implemented over
`String.data` so that every definition evaluates inside the kernel.  The
path-trie (`matchit`) is an external dependency of the repository and is kept
abstract: a built router carries its lookup function together with the trie's
documented contract.
-/

namespace Routerman

/-! String primitives.

Executable models of the Rust string operations used by the routing code.
-/

/-- Byte-lexicographic comparison of char lists, mirroring Rust's `Ord` on
`String` (for the ASCII method and header names involved, code-point order
and byte order coincide). -/
def listCharLe : List Char → List Char → Bool
  | [], _ => true
  | _ :: _, [] => false
  | a :: as, b :: bs =>
    if a.val < b.val then true
    else if b.val < a.val then false
    else listCharLe as bs

/-- Lexicographic `≤` on strings (model of Rust `String: Ord`). -/
def strLe (a b : String) : Bool := listCharLe a.data b.data

/-- Insert into a sorted list, keeping it sorted (stable). -/
def insertSorted (a : String) : List String → List String
  | [] => [a]
  | b :: t => if strLe a b then a :: b :: t else b :: insertSorted a t

/-- Model of `Vec<String>::sort()`: a stable sort by `strLe`. -/
def sortStrings : List String → List String
  | [] => []
  | a :: t => insertSorted a (sortStrings t)

/-- Model of `Vec<String>::join(sep)`. -/
def strJoin (sep : String) : List String → String
  | [] => ""
  | [s] => s
  | s :: rest => ⟨s.data ++ sep.data ++ (strJoin sep rest).data⟩

/-- String concatenation over `.data` (kernel-reducible `++`). -/
def strAppend (a b : String) : String := ⟨a.data ++ b.data⟩

/-- Model of `str::ends_with('/')`. -/
def endsInSlash (s : String) : Bool := s.data.getLast? = some '/'

/-- Model of `str::strip_suffix('/')`: drops one trailing `'/'` when present. -/
def stripSlash (s : String) : Option String :=
  if endsInSlash s then some ⟨s.data.dropLast⟩ else none

/-! HTTP model.

`hyper::Response<Body>` as observed by this library: a status code, a header
list (lower-cased names) and a body.  `HeaderMap::insert` replaces every
previous value stored under the name; the builder's `.header(..)` appends.
-/

/-- An HTTP response: status, headers (name/value pairs), body. -/
structure HttpResponse where
  status : Nat
  headers : List (String × String)
  body : String
  deriving Repr, DecidableEq

/-- Model of `HeaderMap::insert`: replace any previous value for the name, the new
pair going to the end. -/
def headerInsert (hs : List (String × String)) (k v : String) :
    List (String × String) :=
  hs.filter (fun p => ¬ p.1 = k) ++ [(k, v)]

/-- First stored value for a header name. -/
def headerGet (hs : List (String × String)) (k : String) : Option String :=
  (hs.find? (fun p => p.1 = k)).map Prod.snd

/-! Embedding of `src/method.rs` (MethodRouter). -/

/-- Route handlers are opaque to the routing logic; a `Route` is identified
by a numeric id. -/
abbrev RouteId := Nat

/-- Model of `MethodFallback`: either a fallback `Route`, or no fallback together with
the stored, precomputed `Allow` header value. -/
inductive MethodFallback where
  | route (r : RouteId)
  | noneWith (allowHeader : String)
  deriving Repr, DecidableEq

/-- Model of `MethodRouter`: a map from HTTP method (its display string, e.g. `"GET"`)
to a `Route`, plus the fallback state.  The `HashMap<Method, Route>` is
modelled as an association list with unique keys; `mapInsert` mirrors
`HashMap::insert`'s overwrite semantics. -/
structure MethodRouter where
  handlers : List (String × RouteId)
  fallback : MethodFallback
  deriving Repr, DecidableEq

/-- Model of `HashMap::insert`: overwrite the entry for the key if present, else add
the entry. -/
def mapInsert : List (String × RouteId) → String → RouteId →
    List (String × RouteId)
  | [], m, r => [(m, r)]
  | (m', r') :: t, m, r =>
    if m' = m then (m, r) :: t else (m', r') :: mapInsert t m r

/-- Model of `HashMap::get`. -/
def mapGet (l : List (String × RouteId)) (m : String) : Option RouteId :=
  (l.find? (fun p => p.1 = m)).map Prod.snd

/-- The `Allow` header value derived in `update_allow_header`: the sorted,
`", "`-joined list of the registered method names. -/
def allowValue (handlers : List (String × RouteId)) : String :=
  strJoin ", " (sortStrings (handlers.map Prod.fst))

/-- Model of `MethodRouter::update_allow_header`: when there is no fallback route,
re-derive the stored `Allow` header from the current handler keys; when a
fallback route is installed, do nothing. -/
def updateAllowHeader (r : MethodRouter) : MethodRouter :=
  match r.fallback with
  | .noneWith _ => { r with fallback := .noneWith (allowValue r.handlers) }
  | .route _ => r

/-- Model of `MethodRouter::new()`: no handlers, no fallback route, stored `Allow`
header the empty string. -/
def MethodRouter.new : MethodRouter :=
  { handlers := [], fallback := .noneWith "" }

/-- Model of `MethodRouter::set_method` (also `method`, which delegates to it):
insert/overwrite the route for the method, then refresh the header. -/
def setMethod (r : MethodRouter) (m : String) (rt : RouteId) : MethodRouter :=
  updateAllowHeader { r with handlers := mapInsert r.handlers m rt }

/-- Model of `MethodRouter::set_fallback` / `fallback`. -/
def setFallback (r : MethodRouter) (rt : RouteId) : MethodRouter :=
  { r with fallback := .route rt }

/-- One step of `HashMap::extend` (`self.handlers.extend(other.handlers)`)
as folded in `merge`. -/
def extendStep (h : List (String × RouteId)) (p : String × RouteId) :
    List (String × RouteId) :=
  mapInsert h p.1 p.2

/-- Model of `MethodRouter::merge`.  `none` models the panic
`"Cannot merge two method routers with fallback routes"`; otherwise the
other router's handler entries are inserted over ours
(`HashMap::extend`), the single fallback route (if any) is adopted, and the
`Allow` header is refreshed. -/
def merge (self other : MethodRouter) : Option MethodRouter :=
  let handlers := other.handlers.foldl extendStep self.handlers
  match self.fallback, other.fallback with
  | .route _, .route _ => none
  | _, .route rt =>
    some (updateAllowHeader { handlers := handlers, fallback := .route rt })
  | f, .noneWith _ =>
    some (updateAllowHeader { handlers := handlers, fallback := f })

/-- Outcome of the dispatch closure built by
`From<MethodRouter> for Route` (`src/method.rs:137`): either hand the
request to a stored `Route`, or reply immediately. -/
inductive MethodDispatch where
  | invoke (r : RouteId)
  | reply (res : HttpResponse)
  deriving Repr, DecidableEq

/-- The dispatch closure of `From<MethodRouter> for Route`: look the request
method up in `handlers`; on miss use the fallback route if set; otherwise
build the `405` response with the stored `allow_header`
(`Response::builder().status(METHOD_NOT_ALLOWED).header(ALLOW, allow_header)
.body(Body::empty())`). -/
def methodRouterCall (r : MethodRouter) (method : String) : MethodDispatch :=
  match mapGet r.handlers method with
  | some rt => .invoke rt
  | none =>
    match r.fallback with
    | .route rt => .invoke rt
    | .noneWith h =>
      .reply { status := 405, headers := [("allow", h)], body := "" }

/-- A mutation of a `MethodRouter`: either `set_method`/`method` (which
delegates to `set_method`), or `merge`/`merged`/`|` with another router. -/
inductive MethodOp where
  | setOp (m : String) (rt : RouteId)
  | mergeOp (other : MethodRouter)
  deriving Repr

/-- Whether a router currently carries a fallback `Route`. -/
def hasFallbackRoute (r : MethodRouter) : Bool :=
  match r.fallback with
  | .route _ => true
  | .noneWith _ => false

/-- An op keeps the router fallback-free when it is a `set_method`, or a
merge with a router that itself has no fallback route. -/
def opNoFallback : MethodOp → Bool
  | .setOp _ _ => true
  | .mergeOp other => !hasFallbackRoute other

/-- Run a sequence of mutations; `none` models a panic in `merge`. -/
def applyOps : MethodRouter → List MethodOp → Option MethodRouter
  | r, [] => some r
  | r, .setOp m rt :: t => applyOps (setMethod r m rt) t
  | r, .mergeOp o :: t =>
    match merge r o with
    | some r' => applyOps r' t
    | none => none

/-! URI model.

The parts of `hyper::Uri` the routing code touches.  A request URI always
carries a path; scheme and authority may be absent (they are, for server-side
request targets).  `replace_path` re-renders path-and-query as
`format!("{path}?{query}")` (or just the path) and reparses it, which for the
slash-corrected paths produced here amounts to replacing the path field and
keeping the query verbatim.
-/

/-- A URI: optional scheme and authority, a path and an optional query. -/
structure Uri where
  scheme : Option String
  authority : Option String
  path : String
  query : Option String
  deriving Repr, DecidableEq

/-- Model of the `replace_path` helper (identical in `src/router.rs` and in
`src/response/impls.rs`): rewrite only the path component, preserving the
query string verbatim and leaving scheme/authority untouched. -/
def replacePath (uri : Uri) (path : String) : Uri :=
  { uri with path := path }

/-- Display a URI (model of `Uri::to_string()`):
`scheme://` when present, then the authority when present, then the path,
then `?query` when present. -/
def uriToString (u : Uri) : String :=
  ⟨(match u.scheme with
     | some s => s.data ++ "://".data
     | none => []) ++
   (match u.authority with
     | some a => a.data
     | none => []) ++
   u.path.data ++
   (match u.query with
     | some q => '?' :: q.data
     | none => [])⟩

/-! Embedding of `src/request/ext.rs`: percent-decoding of raw parameter
captures.  Raw capture values are byte lists (`List Nat`, each < 256); the
`percent_encoding` crate's `percent_decode` and Rust's UTF-8 validation are
external capabilities of the repository, modelled by their documented
behaviour: a `%` followed by two hex digits decodes to that byte, any other
`%` passes through verbatim; the decoded bytes must then be valid UTF-8.
-/

/-- Value of an ASCII hex digit. -/
def hexDigit (b : Nat) : Option Nat :=
  if 48 ≤ b ∧ b ≤ 57 then some (b - 48)
  else if 65 ≤ b ∧ b ≤ 70 then some (b - 55)
  else if 97 ≤ b ∧ b ≤ 102 then some (b - 87)
  else none

/-- Model of `percent_encoding::percent_decode` over bytes (37 is `'%'`). -/
def percentDecode : List Nat → List Nat
  | [] => []
  | 37 :: h :: l :: rest =>
    match hexDigit h, hexDigit l with
    | some hv, some lv => (16 * hv + lv) :: percentDecode rest
    | _, _ => 37 :: percentDecode (h :: l :: rest)
  | b :: rest => b :: percentDecode rest

/-- A UTF-8 continuation byte (`0x80..=0xBF`). -/
def isCont (b : Nat) : Bool := decide (128 ≤ b ∧ b < 192)

/-- Model of Rust's UTF-8 validation (`str::from_utf8`): rejects overlong
encodings, surrogates and code points above `U+10FFFF`, exactly as
`core::str` does (2-byte leads `C2..=DF`; 3-byte leads `E0..=EF` with the
`E0`/`ED` restrictions; 4-byte leads `F0..=F4` with the `F0`/`F4`
restrictions). -/
def utf8Valid : List Nat → Bool
  | [] => true
  | b :: rest =>
    if b < 128 then utf8Valid rest
    else if b < 194 then false
    else if b < 224 then
      match rest with
      | b1 :: rest' => isCont b1 && utf8Valid rest'
      | [] => false
    else if b < 240 then
      match rest with
      | b1 :: b2 :: rest' =>
        (if b = 224 then decide (160 ≤ b1 ∧ b1 < 192)
         else if b = 237 then decide (128 ≤ b1 ∧ b1 < 160)
         else isCont b1) && isCont b2 && utf8Valid rest'
      | _ => false
    else if b < 245 then
      match rest with
      | b1 :: b2 :: b3 :: rest' =>
        (if b = 240 then decide (144 ≤ b1 ∧ b1 < 192)
         else if b = 244 then decide (128 ≤ b1 ∧ b1 < 144)
         else isCont b1) && isCont b2 && isCont b3 && utf8Valid rest'
      | _ => false
    else false

/-- Decoding of one raw capture value, as in
`percent_decode(v.as_bytes()).decode_utf8()`: percent-decode, then require
the result to be valid UTF-8 (`decode_utf8` borrows the decoded bytes, so
the decoded value is the byte list itself). -/
def decodeValue (v : List Nat) : Option (List Nat) :=
  let d := percentDecode v
  if utf8Valid d then some d else none

/-- Model of `TryFrom<matchit::Params> for RouteParamsExt`: decode each
`(key, value)` capture in order, short-circuiting with
`InvalidParamEncoding(key)` at the first value that fails to decode — the
error carries the offending key and no partial map survives
(`collect::<Result<_, _>>()`). -/
def decodeParams :
    List (String × List Nat) → Except String (List (String × List Nat))
  | [] => .ok []
  | (k, v) :: t =>
    match decodeValue v with
    | some d =>
      match decodeParams t with
      | .ok m => .ok ((k, d) :: m)
      | .error e => .error e
    | none => .error k

/-! Embedding of the response conversion protocol
(`src/response/parts.rs`, `src/response/impls.rs`, `src/response/mod.rs`).

A tuple reply `(part₁, …, partₙ, terminal)` is composed by the
`impl_response_parts` macro of `parts.rs`: convert the terminal element
first, then apply each leading part left-to-right, threading
`(Response, Option<Fmt>)` and stopping as soon as the formatter slot comes
back `None` (a part failed and already produced the error response).  The
part kinds below are the ones the routing code uses: a status code, a header
array with fallible name/value conversion (`impls.rs`,
`ReplyPart for [(K, V); N]`), and a plain-text string body.  The formatter
(`DefaultFormatter`) is a unit struct, modelled as `Unit`.
-/

/-- Model of `Response::new(Body::empty())`: the default response — status
200, no headers, empty body. -/
def defaultResponse : HttpResponse :=
  { status := 200, headers := [], body := "" }

/-- Whether a character may appear in an HTTP header name
(model of the `http` crate's `HeaderName` token alphabet, lower-case form). -/
def isHeaderNameChar (c : Char) : Bool :=
  decide (('a' ≤ c ∧ c ≤ 'z') ∨ ('0' ≤ c ∧ c ≤ '9') ∨ c = '-' ∨ c = '_')

/-- Model of `TryInto<HeaderName>` for a string. -/
def tryHeaderName (s : String) : Option String :=
  if ¬ s.data = [] ∧ s.data.all isHeaderNameChar then some s else none

/-- Whether a byte may appear in an HTTP header value (model of the `http`
crate: horizontal tab, or a visible/obs-text byte that is not DEL). -/
def isHeaderValueChar (c : Char) : Bool :=
  decide (c.val = 9 ∨ (32 ≤ c.val ∧ ¬ c.val = 127 ∧ c.val < 256))

/-- Model of `TryInto<HeaderValue>` for a string. -/
def tryHeaderValue (s : String) : Option String :=
  if s.data.all isHeaderValueChar then some s else none

/-- The response produced by `Reply<DefaultFormatter> for hyper::http::Error`
(`impls.rs`): `(StatusCode::INTERNAL_SERVER_ERROR, self.to_string())`, i.e.
status 500 with the error's display text as a plain-text body. -/
def errorTextReply (msg : String) : HttpResponse :=
  { status := 500, headers := [("content-type", "text/plain")], body := msg }

/-- A response part, as used by the routing code: a status code
(`ReplyPart for StatusCode`), a header array (`ReplyPart for [(K, V); N]`)
or a plain-text string body (`ReplyPart for String`). -/
inductive RPart where
  | statusP (code : Nat)
  | headersP (hs : List (String × String))
  | strBody (s : String)
  deriving Repr, DecidableEq

/-- Model of `ReplyPart for [(K, V); N]` (`impls.rs`): convert each header
name and value, inserting into the response; a failed conversion returns that
error's reply and gives up the formatter (`(err.reply(fmt), None)`). -/
def applyHeaderArr :
    List (String × String) → HttpResponse → HttpResponse × Option Unit
  | [], res => (res, some ())
  | (k, v) :: t, res =>
    match tryHeaderName k with
    | none => (errorTextReply "invalid HTTP header name", none)
    | some k' =>
      match tryHeaderValue v with
      | none => (errorTextReply "invalid HTTP header value", none)
      | some v' =>
        applyHeaderArr t { res with headers := headerInsert res.headers k' v' }

/-- Model of `ReplyPart::reply_part` for the part kinds used by the routing
code: set the status, insert the headers (fallibly), or set a plain-text
body (which also inserts `content-type: text/plain`). -/
def replyPart : RPart → HttpResponse → HttpResponse × Option Unit
  | .statusP c, res => ({ res with status := c }, some ())
  | .headersP hs, res => applyHeaderArr hs res
  | .strBody s, res =>
    ({ res with
        headers := headerInsert res.headers "content-type" "text/plain",
        body := s }, some ())

/-- Modelled from the spec: the `respond!` macro used by
`impl_response_parts` in `parts.rs` is not under `src/`; per §4.1 it threads
`(Response, Option<Fmt>)` through successive part applications and
short-circuits to the already-built error response as soon as a part's
conversion fails (the formatter slot comes back `None`). -/
def applyPartsChain : List RPart → HttpResponse → HttpResponse
  | [], res => res
  | p :: t, res =>
    match replyPart p res with
    | (res', some _) => applyPartsChain t res'
    | (res', none) => res'

/-- Tuple conversion `(part₁, …, partₙ, terminal).reply(fmt)` as composed by
`impl_response_parts` (`parts.rs`) together with the `from_parts` scheme of
`impls.rs` (a terminal value's `Reply` builds the default response and
applies the value as a part to it): convert the terminal first, then apply
the leading parts left-to-right with short-circuiting. -/
def tupleReply (parts : List RPart) (terminal : RPart) : HttpResponse :=
  match replyPart terminal defaultResponse with
  | (res, some _) => applyPartsChain parts res
  | (res, none) => res

/-- Model of `IntoResponse for Result<T, E>` (`src/response/mod.rs`): `Ok`
converts through `T`'s conversion, `Err` through `E`'s — both into the same
response channel. -/
def resultIntoResponse {T E Fmt Res : Type} (f : T → Fmt → Res)
    (g : E → Fmt → Res) : Except E T → Fmt → Res
  | .ok t, fmt => f t fmt
  | .error e, fmt => g e fmt

/-- Model of `Formatter for DefaultFormatter` (`src/response/mod.rs`):
any standard error is rendered as status 500 with
`content-type: text/plain` and the error's display text as body
(`Response::builder().status(INTERNAL_SERVER_ERROR)
.header(CONTENT_TYPE, TEXT_PLAIN).body(err.to_string())`). -/
def formatError (displayText : String) : HttpResponse :=
  { status := 500, headers := [("content-type", "text/plain")],
    body := displayText }

/-! Embedding of `Reply<DefaultFormatter> for RouteError`
(`src/response/impls.rs:74`): the error-to-response rendering of routing
failures.  In that snapshot `RouteError` is a struct holding the request and
a `RouteErrorKind`; only the request's URI is consulted.
-/

/-- The `RouteErrorKind` variants rendered by `impls.rs`. -/
inductive RouteErrorKind where
  | notFound
  | extraTrailingSlash
  | missingTrailingSlash
  | param (key : String)
  deriving Repr, DecidableEq

/-- A `RouteError`: the request's URI together with the failure kind. -/
structure RouteErrorS where
  request : Uri
  kind : RouteErrorKind
  deriving Repr, DecidableEq

/-- Model of `Reply<DefaultFormatter> for RouteError` (`impls.rs:74-113`).
`none` models the `strip_suffix('/').unwrap()` panic, which the trie
contract makes unreachable (an extra-trailing-slash near miss implies the
path ends in `'/'`). -/
def routeErrorReply (e : RouteErrorS) : Option HttpResponse :=
  match e.kind with
  | .notFound => some (tupleReply [] (.statusP 404))
  | .extraTrailingSlash =>
    (stripSlash e.request.path).map fun p =>
      tupleReply [.statusP 308]
        (.headersP [("location", uriToString (replacePath e.request p))])
  | .missingTrailingSlash =>
    some (tupleReply [.statusP 308]
      (.headersP [("location",
        uriToString (replacePath e.request (strAppend e.request.path "/")))]))
  | .param _ => some (tupleReply [] (.statusP 400))

/-! Embedding of `RequestService::call` (`src/router.rs:180-238`).

The `matchit` path-trie is an external dependency; a built router is
modelled by its lookup function from a path to the trie's verdict, plus the
optional default route.  The outcome of `call` is either a `RequestFuture`
in the `Route` state (a handler dispatched, with the decoded parameter map
attached for an exact match and nothing attached for the default route) or
one in the `Response` state holding the formatted error.
-/

/-- Verdicts of `matchit::Router::at` (`matchit::MatchError`). -/
inductive MatchVerdict where
  | notFound
  | extraTrailingSlash
  | missingTrailingSlash
  deriving Repr, DecidableEq

/-- A successful trie match: the bound route and the raw captures. -/
structure MatchOk where
  value : RouteId
  params : List (String × List Nat)
  deriving Repr, DecidableEq

/-- A built router: the trie lookup function and the default route. -/
structure RouterModel where
  lookupAt : String → Except MatchVerdict MatchOk
  defaultRoute : Option RouteId

/-- The `RouteError` enum of `src/router.rs:146-163`. -/
inductive RouteErrorE where
  | notFound
  | expected (u : Uri)
  | pathErr (key : String)
  | methodNotAllowed (allowHeader : String)
  deriving Repr, DecidableEq

/-- Outcome of `RequestService::call`: dispatch into a route's handler
future (`RequestFuture::Route`) with the parameters attached to the request,
or an immediate formatted-error response (`RequestFuture::Response`). -/
inductive CallOutcome where
  | dispatch (route : RouteId) (params : Option (List (String × List Nat)))
  | errorResponse (err : RouteErrorE)
  deriving Repr, DecidableEq

/-- Model of `RequestService::call`: look the path up in the trie; on an
exact match decode the captures (aborting with `RouteError::Path` on
failure) and dispatch; on `NotFound` use the default route if present, else
`RouteError::NotFound`; on either trailing-slash near miss build the
corrected URI with `replace_path` and reply with `RouteError::Expected`.
`none` models the `strip_suffix('/').unwrap()` panic, unreachable under the
trie contract. -/
def routerCall (router : RouterModel) (path : Uri) : Option CallOutcome :=
  match router.lookupAt path.path with
  | .ok m =>
    match decodeParams m.params with
    | .ok ps => some (.dispatch m.value (some ps))
    | .error k => some (.errorResponse (.pathErr k))
  | .error .notFound =>
    match router.defaultRoute with
    | some r => some (.dispatch r none)
    | none => some (.errorResponse .notFound)
  | .error .extraTrailingSlash =>
    (stripSlash path.path).map fun p =>
      .errorResponse (.expected (replacePath path p))
  | .error .missingTrailingSlash =>
    some (.errorResponse (.expected (replacePath path
      (strAppend path.path "/"))))

/-! Embedding of the `RequestFuture` state machine
(`src/router.rs:241-260`).

The inner handler future is the boxed future produced by an async handler:
it needs some number of polls before completing with its response, and —
per the standard contract of compiler-generated futures — polling it again
after completion is itself a contract violation.  `none` throughout models
a panic.
-/

/-- Result of one poll. -/
inductive PollR (Res : Type) where
  | pending
  | ready (v : Res)
  deriving Repr, DecidableEq

/-- The inner handler future: `some (n, v)` still needs `n + 1` polls before
yielding `v`; `none` is a completed future, which panics when polled again
(`async fn` resumed after completion). -/
def pollInner {Res : Type} :
    Option (Nat × Res) → Option (PollR Res × Option (Nat × Res))
  | none => none
  | some (0, v) => some (.ready v, none)
  | some (n + 1, v) => some (.pending, some (n, v))

/-- The `RequestFuture` states: `Route` wraps the in-flight handler future,
`Response` holds the not-yet-yielded immediate response (`None` once
taken). -/
inductive RequestFuture (Res : Type) where
  | route (inner : Option (Nat × Res))
  | response (res : Option Res)
  deriving Repr, DecidableEq

/-- Model of `Future::poll for RequestFuture`: in the `Route` state forward
to the inner future (`ready!` returns `Pending` as is, a ready value is
yielded); in the `Response` state take and yield the held response;
`Response(None)` panics (`"future polled after completion"`). -/
def requestFuturePoll {Res : Type} :
    RequestFuture Res → Option (PollR Res × RequestFuture Res)
  | .route inner =>
    match pollInner inner with
    | some (p, inner') => some (p, .route inner')
    | none => none
  | .response (some r) => some (.ready r, .response none)
  | .response none => none

/-- The result of the `k`-th poll (0-indexed) of the state machine, `none`
if any poll up to it panics. -/
def runPolls {Res : Type} (s : RequestFuture Res) :
    Nat → Option (PollR Res × RequestFuture Res)
  | 0 => requestFuturePoll s
  | k + 1 =>
    match requestFuturePoll s with
    | some (_, s') => runPolls s' k
    | none => none

/-! Association-list lemmas for `mapInsert` / `HashMap::extend`. -/

theorem mapGet_mapInsert_self (l : List (String × RouteId)) (m : String)
    (rt : RouteId) : mapGet (mapInsert l m rt) m = some rt := by
  induction l with
  | nil => simp [mapInsert, mapGet]
  | cons p t ih =>
    obtain ⟨m', r'⟩ := p
    by_cases h : m' = m
    · simp [mapInsert, h, mapGet]
    · simpa [mapInsert, h, mapGet, Ne.symm h] using ih

theorem mapGet_cons_self (m : String) (r : RouteId)
    (t : List (String × RouteId)) : mapGet ((m, r) :: t) m = some r := by
  simp [mapGet, List.find?]

theorem mapGet_cons_ne (m : String) (r : RouteId)
    (t : List (String × RouteId)) (k : String) (h : ¬ m = k) :
    mapGet ((m, r) :: t) k = mapGet t k := by
  simp [mapGet, List.find?, h]

theorem mapGet_mapInsert_ne (l : List (String × RouteId)) (m : String)
    (rt : RouteId) (k : String) (h : k ≠ m) :
    mapGet (mapInsert l m rt) k = mapGet l k := by
  induction l with
  | nil => simp [mapInsert, mapGet, Ne.symm h]
  | cons p t ih =>
    obtain ⟨m', r'⟩ := p
    by_cases hm : m' = m
    · subst hm
      simp [mapInsert, mapGet, Ne.symm h]
    · by_cases hk : m' = k
      · subst hk
        simp [mapInsert, hm, mapGet]
      · simpa [mapInsert, hm, mapGet, hk] using ih

theorem mem_keys_mapInsert (l : List (String × RouteId)) (m : String)
    (rt : RouteId) (x : String)
    (hx : x ∈ (mapInsert l m rt).map Prod.fst) :
    x ∈ l.map Prod.fst ∨ x = m := by
  induction l with
  | nil => simpa [mapInsert] using hx
  | cons p t ih =>
    obtain ⟨m', r'⟩ := p
    by_cases h : m' = m
    · subst h
      rcases (by simpa [mapInsert] using hx : x = m' ∨ x ∈ t.map Prod.fst) with
        h1 | h1
      · exact Or.inr h1
      · exact Or.inl (by simp [h1])
    · rcases (by simpa [mapInsert, h] using hx :
          x = m' ∨ x ∈ (mapInsert t m rt).map Prod.fst) with h1 | h1
      · exact Or.inl (by simp [h1])
      · rcases ih h1 with h2 | h2
        · exact Or.inl (by simp [h2])
        · exact Or.inr h2

theorem nodup_keys_mapInsert (l : List (String × RouteId)) (m : String)
    (rt : RouteId) (h : (l.map Prod.fst).Nodup) :
    ((mapInsert l m rt).map Prod.fst).Nodup := by
  induction l with
  | nil => simp [mapInsert]
  | cons p t ih =>
    obtain ⟨m', r'⟩ := p
    simp only [List.map_cons, List.nodup_cons] at h
    by_cases hm : m' = m
    · subst hm
      simpa [mapInsert] using h
    · have h1 : m' ∉ (mapInsert t m rt).map Prod.fst := by
        intro hmem
        rcases mem_keys_mapInsert t m rt m' hmem with h2 | h2
        · exact h.1 h2
        · exact hm h2
      simp only [mapInsert, if_neg hm, List.map_cons, List.nodup_cons]
      exact ⟨h1, ih h.2⟩

theorem mapGet_foldl_not_mem (l : List (String × RouteId))
    (acc : List (String × RouteId)) (k : String)
    (h : ∀ p ∈ l, p.1 ≠ k) :
    mapGet (l.foldl extendStep acc) k = mapGet acc k := by
  induction l generalizing acc with
  | nil => rfl
  | cons p t ih =>
    rw [List.foldl_cons, ih _ (fun q hq => h q (List.mem_cons_of_mem p hq)),
      extendStep, mapGet_mapInsert_ne]
    exact fun hk => h p (List.mem_cons_self p t) hk.symm

theorem nodup_keys_foldl (l : List (String × RouteId))
    (acc : List (String × RouteId)) (h : (acc.map Prod.fst).Nodup) :
    ((l.foldl extendStep acc).map Prod.fst).Nodup := by
  induction l generalizing acc with
  | nil => exact h
  | cons p t ih =>
    exact ih _ (nodup_keys_mapInsert acc p.1 p.2 h)

theorem mapGet_extend (l : List (String × RouteId))
    (acc : List (String × RouteId)) (hnd : (l.map Prod.fst).Nodup)
    (k : String) :
    mapGet (l.foldl extendStep acc) k =
      match mapGet l k with
      | some v => some v
      | none => mapGet acc k := by
  induction l generalizing acc with
  | nil => simp [mapGet]
  | cons p t ih =>
    obtain ⟨m, r⟩ := p
    simp only [List.map_cons, List.nodup_cons] at hnd
    rw [List.foldl_cons]
    by_cases hk : k = m
    · subst hk
      have hnot : ∀ q ∈ t, q.1 ≠ k := by
        intro q hq hqk
        exact hnd.1 (hqk ▸ List.mem_map_of_mem Prod.fst hq)
      rw [mapGet_foldl_not_mem t _ k hnot, extendStep, mapGet_mapInsert_self,
        mapGet_cons_self]
    · rw [ih _ hnd.2, mapGet_cons_ne m r t k (fun hm => hk hm.symm)]
      have : mapGet (extendStep acc (m, r)) k = mapGet acc k :=
        mapGet_mapInsert_ne acc m r k hk
      rw [this]

/-! Claims C4, C6, C10 about `MethodRouter` dispatch and `merge`. -/

/-- C4: for every `MethodRouter` and request method, the dispatch closure of
`From<MethodRouter> for Route` invokes the registered `Route` on a method
hit; on a miss invokes the fallback `Route` when one is set; and otherwise
replies `405 Method Not Allowed` carrying exactly the stored, precomputed
`allow_header` value (the response uses the stored field of the router as
given — it is not recomputed at dispatch time). -/
theorem methodRouter_dispatch_spec (r : MethodRouter) (m : String) :
    (∀ rt, mapGet r.handlers m = some rt →
      methodRouterCall r m = .invoke rt) ∧
    (mapGet r.handlers m = none → ∀ rt, r.fallback = .route rt →
      methodRouterCall r m = .invoke rt) ∧
    (mapGet r.handlers m = none → ∀ h, r.fallback = .noneWith h →
      methodRouterCall r m =
        .reply { status := 405, headers := [("allow", h)], body := "" }) := by
  refine ⟨fun rt hrt => ?_, fun hnone rt hf => ?_, fun hnone h hf => ?_⟩
  · simp [methodRouterCall, hrt]
  · simp [methodRouterCall, hnone, hf]
  · simp [methodRouterCall, hnone, hf]

/-- Witness for C4: a concrete router whose stored `Allow` value (`"ZZZ"`)
deliberately differs from the derived one, showing the stored field is what
the 405 reply carries; plus a hit and a fallback case. -/
theorem methodRouter_dispatch_spec_witness :
    methodRouterCall ⟨[("GET", 1)], .noneWith "ZZZ"⟩ "POST" =
      .reply { status := 405, headers := [("allow", "ZZZ")], body := "" } ∧
    methodRouterCall ⟨[("GET", 1)], .noneWith "ZZZ"⟩ "GET" = .invoke 1 ∧
    methodRouterCall ⟨[("GET", 1)], .route 7⟩ "POST" = .invoke 7 :=
  ⟨(methodRouter_dispatch_spec ⟨[("GET", 1)], .noneWith "ZZZ"⟩ "POST").2.2
      (by decide) "ZZZ" rfl,
   (methodRouter_dispatch_spec ⟨[("GET", 1)], .noneWith "ZZZ"⟩ "GET").1
      1 (by decide),
   (methodRouter_dispatch_spec ⟨[("GET", 1)], .route 7⟩ "POST").2.1
      (by decide) 7 rfl⟩

/-- C6: `MethodRouter::merge` panics (modelled as `none`) exactly when both
routers already carry a fallback `Route`; when exactly one side carries a
fallback `Route` the merged router adopts it; and on duplicate method keys
the merged-in router's entries silently win, with the receiving router's
entries surviving only for keys the other router does not bind. -/
theorem methodRouter_merge_spec (a b : MethodRouter) :
    (merge a b = none ↔
      (∃ ra, a.fallback = .route ra) ∧ (∃ rb, b.fallback = .route rb)) ∧
    (∀ rb h, a.fallback = .noneWith h → b.fallback = .route rb →
      ∃ r, merge a b = some r ∧ r.fallback = .route rb) ∧
    (∀ ra h, a.fallback = .route ra → b.fallback = .noneWith h →
      ∃ r, merge a b = some r ∧ r.fallback = .route ra) ∧
    (∀ r, merge a b = some r → (b.handlers.map Prod.fst).Nodup →
      ∀ k, mapGet r.handlers k =
        match mapGet b.handlers k with
        | some v => some v
        | none => mapGet a.handlers k) := by
  refine ⟨?_, ?_, ?_, ?_⟩
  · constructor
    · intro h
      cases ha : a.fallback <;> cases hb : b.fallback <;>
        simp [merge, ha, hb] at h ⊢
    · rintro ⟨⟨ra, ha⟩, ⟨rb, hb⟩⟩
      simp [merge, ha, hb]
  · intro rb h ha hb
    refine ⟨updateAllowHeader
      { handlers := b.handlers.foldl extendStep a.handlers,
        fallback := .route rb }, ?_, ?_⟩
    · simp [merge, ha, hb]
    · simp [updateAllowHeader]
  · intro ra h ha hb
    refine ⟨updateAllowHeader
      { handlers := b.handlers.foldl extendStep a.handlers,
        fallback := .route ra }, ?_, ?_⟩
    · simp [merge, ha, hb]
    · simp [updateAllowHeader]
  · intro r hr hnd k
    have hh : r.handlers = b.handlers.foldl extendStep a.handlers := by
      cases ha : a.fallback <;> cases hb : b.fallback <;>
        simp [merge, ha, hb] at hr <;>
        · rw [← hr]
          simp [updateAllowHeader]
    rw [hh, mapGet_extend b.handlers a.handlers hnd k]

/-- Witness for C6: both-fallback merge panics; a one-sided fallback is
adopted; the merged-in router's entry for `"GET"` wins over ours. -/
theorem methodRouter_merge_spec_witness :
    merge ⟨[], .route 1⟩ ⟨[], .route 2⟩ = none ∧
    (∃ r, merge ⟨[("GET", 1)], .noneWith "GET"⟩ ⟨[], .route 2⟩ = some r ∧
      r.fallback = .route 2) ∧
    (∀ r, merge ⟨[("GET", 1)], .noneWith "GET"⟩
        ⟨[("GET", 9), ("PUT", 3)], .noneWith "GET, PUT"⟩ = some r →
      mapGet r.handlers "GET" = some 9 ∧ mapGet r.handlers "PUT" = some 3) := by
  refine ⟨?_, ?_, ?_⟩
  · exact (methodRouter_merge_spec ⟨[], .route 1⟩ ⟨[], .route 2⟩).1.mpr
      ⟨⟨1, rfl⟩, ⟨2, rfl⟩⟩
  · exact (methodRouter_merge_spec _ _).2.1 2 "GET" rfl rfl
  · intro r hr
    have h4 := (methodRouter_merge_spec ⟨[("GET", 1)], .noneWith "GET"⟩
      ⟨[("GET", 9), ("PUT", 3)], .noneWith "GET, PUT"⟩).2.2.2 r hr (by decide)
    constructor
    · have := h4 "GET"
      rw [this]
      decide
    · have := h4 "PUT"
      rw [this]
      decide

theorem applyOps_inv (ops : List MethodOp) :
    ∀ r : MethodRouter, r.fallback = .noneWith (allowValue r.handlers) →
      (r.handlers.map Prod.fst).Nodup →
      ops.all opNoFallback = true →
      ∃ r', applyOps r ops = some r' ∧
        r'.fallback = .noneWith (allowValue r'.handlers) ∧
        (r'.handlers.map Prod.fst).Nodup := by
  induction ops with
  | nil => exact fun r h1 h2 _ => ⟨r, rfl, h1, h2⟩
  | cons o t ih =>
    intro r h1 h2 hall
    rw [List.all_cons, Bool.and_eq_true] at hall
    cases o with
    | setOp m rt =>
      refine ih (setMethod r m rt) ?_ ?_ hall.2
      · simp [setMethod, h1, updateAllowHeader]
      · simp only [setMethod, updateAllowHeader, h1]
        exact nodup_keys_mapInsert r.handlers m rt h2
    | mergeOp o =>
      have hno : hasFallbackRoute o = false := by
        simpa [opNoFallback] using hall.1
      obtain ⟨ho, hof⟩ : ∃ h, o.fallback = .noneWith h := by
        cases hfo : o.fallback with
        | route rt => rw [hasFallbackRoute, hfo] at hno; cases hno
        | noneWith h => exact ⟨h, rfl⟩
      have hm : merge r o = some (updateAllowHeader
          { handlers := o.handlers.foldl extendStep r.handlers,
            fallback := .noneWith (allowValue r.handlers) }) := by
        simp [merge, h1, hof]
      simp only [applyOps, hm]
      refine ih _ ?_ ?_ hall.2
      · simp [updateAllowHeader]
      · simp only [updateAllowHeader]
        exact nodup_keys_foldl o.handlers r.handlers h2

/-- C5: starting from `MethodRouter::new`, after any sequence of
`set_method`/`method` and `merge` operations in which no fallback `Route` is
ever involved, the stored `Allow` header value equals the lexicographically
sorted, `", "`-joined list of exactly the currently registered methods; the
handler keys are duplicate-free, and re-registering a method overwrites the
previous handler for that key (so the `Allow` list gains no duplicate
entry).  Since this holds of every operation sequence, it holds after every
individual mutation: the header is never stale. -/
theorem allow_header_never_stale (ops : List MethodOp)
    (hall : ops.all opNoFallback = true) :
    ∃ r, applyOps MethodRouter.new ops = some r ∧
      r.fallback = .noneWith
        (strJoin ", " (sortStrings (r.handlers.map Prod.fst))) ∧
      (r.handlers.map Prod.fst).Nodup ∧
      (∀ m rt, mapGet (setMethod r m rt).handlers m = some rt) := by
  obtain ⟨r, hr, h1, h2⟩ := applyOps_inv ops MethodRouter.new rfl List.nodup_nil hall
  exact ⟨r, hr, h1, h2, fun m rt => by
    simp only [setMethod, updateAllowHeader]
    cases hf : ({ r with handlers := mapInsert r.handlers m rt } :
        MethodRouter).fallback <;>
      simp [mapGet_mapInsert_self]⟩

/-- Witness for C5: register `POST`, overwrite it, register `GET`, then
merge in a router carrying `PUT` and an overriding `GET`; the resulting
`Allow` value is `"GET, POST, PUT"`, with no duplicate for the re-registered
keys. -/
theorem allow_header_never_stale_witness :
    ([MethodOp.setOp "POST" 1, MethodOp.setOp "POST" 2,
      MethodOp.setOp "GET" 3,
      MethodOp.mergeOp ⟨[("PUT", 4), ("GET", 5)], .noneWith "GET, PUT"⟩]).all
        opNoFallback = true ∧
    ∃ r, applyOps MethodRouter.new
        [MethodOp.setOp "POST" 1, MethodOp.setOp "POST" 2,
         MethodOp.setOp "GET" 3,
         MethodOp.mergeOp ⟨[("PUT", 4), ("GET", 5)], .noneWith "GET, PUT"⟩] =
          some r ∧
      r.fallback = .noneWith
        (strJoin ", " (sortStrings (r.handlers.map Prod.fst))) ∧
      (r.handlers.map Prod.fst).Nodup ∧
      (∀ m rt, mapGet (setMethod r m rt).handlers m = some rt) :=
  ⟨by decide, allow_header_never_stale _ (by decide)⟩

/-- C10: a freshly created `MethodRouter` with no methods registered and no
fallback route replies `405` to every request method, with an `Allow` header
present and equal to the empty string — which is both the initial stored
value from `MethodRouter::new` and the sorted join of the empty method
set. -/
theorem methodRouter_empty_allow (m : String) :
    methodRouterCall MethodRouter.new m =
      .reply { status := 405, headers := [("allow", "")], body := "" } ∧
    headerGet [("allow", "")] "allow" = some "" ∧
    allowValue [] = "" ∧
    MethodRouter.new.fallback = .noneWith (allowValue MethodRouter.new.handlers) :=
  ⟨rfl, rfl, rfl, rfl⟩

/-! Claims C7 and C8 about the response conversion protocol. -/

/-- C7: `Result`'s response conversion sends `Ok(t)` through `T`'s
conversion and `Err(e)` through `E`'s — both branches flow into the same
response channel — and the default formatter renders any standard error as a
status-500 response whose plain-text body is the error's display text. -/
theorem result_reply_converges {T E Fmt Res : Type} (f : T → Fmt → Res)
    (g : E → Fmt → Res) (t : T) (e : E) (fmt : Fmt) (s : String) :
    resultIntoResponse f g (.ok t) fmt = f t fmt ∧
    resultIntoResponse f g (.error e) fmt = g e fmt ∧
    (formatError s).status = 500 ∧
    (formatError s).body = s ∧
    headerGet (formatError s).headers "content-type" = some "text/plain" :=
  ⟨rfl, rfl, rfl, rfl, rfl⟩

/-- C8: tuple conversion starts from the default response with the terminal
(last) element applied first; the leading parts are then applied
left-to-right; and as soon as one part's conversion fails the chain
short-circuits to that part's error response, skipping every remaining part
(the result does not depend on the rest of the chain). -/
theorem tuple_reply_composition (parts : List RPart) (t : RPart) :
    (∀ res, replyPart t defaultResponse = (res, some ()) →
      tupleReply parts t = applyPartsChain parts res) ∧
    (∀ p ps res res', replyPart p res = (res', some ()) →
      applyPartsChain (p :: ps) res = applyPartsChain ps res') ∧
    (∀ p ps ps' res res', replyPart p res = (res', none) →
      applyPartsChain (p :: ps) res = res' ∧
      applyPartsChain (p :: ps) res = applyPartsChain (p :: ps') res) := by
  refine ⟨?_, ?_, ?_⟩
  · intro res h
    simp [tupleReply, h]
  · intro p ps res res' h
    simp [applyPartsChain, h]
  · intro p ps ps' res res' h
    constructor <;> simp [applyPartsChain, h]

/-- Witness for C8: a 308-with-header tuple (terminal applied first), two
status parts applied left-to-right, and a bad header name (`"?"`)
short-circuiting past the rest of the chain regardless of what follows. -/
theorem tuple_reply_composition_witness :
    tupleReply [RPart.statusP 308] (RPart.headersP [("location", "/a")]) =
      applyPartsChain [RPart.statusP 308]
        { status := 200, headers := [("location", "/a")], body := "" } ∧
    applyPartsChain [RPart.statusP 201, RPart.statusP 202] defaultResponse =
      applyPartsChain [RPart.statusP 202]
        { status := 201, headers := [], body := "" } ∧
    (applyPartsChain [RPart.headersP [("?", "x")], RPart.statusP 303]
        defaultResponse = errorTextReply "invalid HTTP header name" ∧
      applyPartsChain [RPart.headersP [("?", "x")], RPart.statusP 303]
        defaultResponse =
      applyPartsChain [RPart.headersP [("?", "x")], RPart.strBody "ignored"]
        defaultResponse) :=
  ⟨(tuple_reply_composition [RPart.statusP 308]
      (RPart.headersP [("location", "/a")])).1
      { status := 200, headers := [("location", "/a")], body := "" }
      (by decide),
   (tuple_reply_composition [] (RPart.statusP 0)).2.1
      (RPart.statusP 201) [RPart.statusP 202] defaultResponse
      { status := 201, headers := [], body := "" } (by decide),
   (tuple_reply_composition [] (RPart.statusP 0)).2.2
      (RPart.headersP [("?", "x")]) [RPart.statusP 303]
      [RPart.strBody "ignored"] defaultResponse
      (errorTextReply "invalid HTTP header name") (by decide)⟩

/-! Claim C2: the trailing-slash near-miss responses. -/

/-- C2: on either trailing-slash mismatch the rendered response has status
`308 Permanent Redirect` and a `Location` header holding the request URI
with only the path component corrected — trailing slash stripped
(respectively appended) — the query string, scheme and authority preserved
verbatim.  The hypotheses are the trie contract (an extra-slash near miss
implies the path ends in `'/'`) and that the corrected URI renders to a
legal header value (true of any legal request URI). -/
theorem trailing_slash_redirect_308 (u : Uri) :
    (∀ p, stripSlash u.path = some p →
      tryHeaderValue (uriToString (replacePath u p)) =
        some (uriToString (replacePath u p)) →
      ∃ res, routeErrorReply ⟨u, .extraTrailingSlash⟩ = some res ∧
        res.status = 308 ∧
        headerGet res.headers "location" =
          some (uriToString (replacePath u p)) ∧
        (replacePath u p).path = p ∧
        (replacePath u p).query = u.query ∧
        (replacePath u p).scheme = u.scheme ∧
        (replacePath u p).authority = u.authority) ∧
    (tryHeaderValue (uriToString (replacePath u (strAppend u.path "/"))) =
        some (uriToString (replacePath u (strAppend u.path "/"))) →
      ∃ res, routeErrorReply ⟨u, .missingTrailingSlash⟩ = some res ∧
        res.status = 308 ∧
        headerGet res.headers "location" =
          some (uriToString (replacePath u (strAppend u.path "/"))) ∧
        (replacePath u (strAppend u.path "/")).path = strAppend u.path "/" ∧
        (replacePath u (strAppend u.path "/")).query = u.query ∧
        (replacePath u (strAppend u.path "/")).scheme = u.scheme ∧
        (replacePath u (strAppend u.path "/")).authority = u.authority) := by
  have hn : tryHeaderName "location" = some "location" := by decide
  constructor
  · intro p hp hv
    refine ⟨{ status := 308,
              headers := [("location", uriToString (replacePath u p))],
              body := "" }, ?_, rfl, ?_, rfl, rfl, rfl, rfl⟩
    · simp [routeErrorReply, hp, tupleReply, replyPart, applyHeaderArr, hn,
        hv, headerInsert, applyPartsChain, defaultResponse]
    · simp [headerGet, List.find?]
  · intro hv
    refine ⟨{ status := 308,
              headers := [("location",
                uriToString (replacePath u (strAppend u.path "/")))],
              body := "" }, ?_, rfl, ?_, rfl, rfl, rfl, rfl⟩
    · simp [routeErrorReply, tupleReply, replyPart, applyHeaderArr, hn,
        hv, headerInsert, applyPartsChain, defaultResponse]
    · simp [headerGet, List.find?]

/-- Witness for C2: request `GET /items/42/?q=1` (extra slash) redirects to
`/items/42?q=1`; request to `/items/42` registered as `/items/42/` (missing
slash) redirects to `/items/42/?q=1`; the query survives verbatim. -/
theorem trailing_slash_redirect_308_witness :
    (∃ res, routeErrorReply
        ⟨⟨none, none, "/items/42/", some "q=1"⟩, .extraTrailingSlash⟩ =
          some res ∧
      res.status = 308 ∧
      headerGet res.headers "location" =
        some (uriToString
          (replacePath ⟨none, none, "/items/42/", some "q=1"⟩ "/items/42")) ∧
      (replacePath ⟨none, none, "/items/42/", some "q=1"⟩ "/items/42").path =
        "/items/42" ∧
      (replacePath ⟨none, none, "/items/42/", some "q=1"⟩ "/items/42").query =
        (⟨none, none, "/items/42/", some "q=1"⟩ : Uri).query ∧
      (replacePath ⟨none, none, "/items/42/", some "q=1"⟩ "/items/42").scheme =
        (⟨none, none, "/items/42/", some "q=1"⟩ : Uri).scheme ∧
      (replacePath ⟨none, none, "/items/42/", some "q=1"⟩
          "/items/42").authority =
        (⟨none, none, "/items/42/", some "q=1"⟩ : Uri).authority) ∧
    (∃ res, routeErrorReply
        ⟨⟨none, none, "/items/42", some "q=1"⟩, .missingTrailingSlash⟩ =
          some res ∧
      res.status = 308 ∧
      headerGet res.headers "location" =
        some (uriToString (replacePath ⟨none, none, "/items/42", some "q=1"⟩
          (strAppend "/items/42" "/"))) ∧
      (replacePath ⟨none, none, "/items/42", some "q=1"⟩
          (strAppend "/items/42" "/")).path = strAppend "/items/42" "/" ∧
      (replacePath ⟨none, none, "/items/42", some "q=1"⟩
          (strAppend "/items/42" "/")).query =
        (⟨none, none, "/items/42", some "q=1"⟩ : Uri).query ∧
      (replacePath ⟨none, none, "/items/42", some "q=1"⟩
          (strAppend "/items/42" "/")).scheme =
        (⟨none, none, "/items/42", some "q=1"⟩ : Uri).scheme ∧
      (replacePath ⟨none, none, "/items/42", some "q=1"⟩
          (strAppend "/items/42" "/")).authority =
        (⟨none, none, "/items/42", some "q=1"⟩ : Uri).authority) :=
  ⟨(trailing_slash_redirect_308 ⟨none, none, "/items/42/", some "q=1"⟩).1
      "/items/42" (by decide) (by decide),
   (trailing_slash_redirect_308 ⟨none, none, "/items/42", some "q=1"⟩).2
      (by decide)⟩

/-! Claim C3: atomicity of parameter decoding. -/

theorem decodeParams_error_of_first_fail (pre : List (String × List Nat)) :
    ∀ (k : String) (v : List Nat) (post : List (String × List Nat)),
      (∀ q ∈ pre, (decodeValue q.2).isSome = true) →
      decodeValue v = none →
      decodeParams (pre ++ (k, v) :: post) = .error k := by
  induction pre with
  | nil =>
    intro k v post _ hv
    simp [decodeParams, hv]
  | cons q t ih =>
    intro k v post hpre hv
    obtain ⟨qk, qv⟩ := q
    obtain ⟨d, hd⟩ := Option.isSome_iff_exists.mp
      (hpre (qk, qv) (List.mem_cons_self _ _))
    have hrec := ih k v post
      (fun r hr => hpre r (List.mem_cons_of_mem _ hr)) hv
    simp [decodeParams, hd, hrec]

theorem decodeParams_ok_of_all (ps : List (String × List Nat)) :
    (∀ q ∈ ps, (decodeValue q.2).isSome = true) →
    ∃ m, decodeParams ps = .ok m ∧
      List.Forall₂ (fun q r => q.1 = r.1 ∧ decodeValue q.2 = some r.2)
        ps m := by
  induction ps with
  | nil => exact fun _ => ⟨[], rfl, List.Forall₂.nil⟩
  | cons q t ih =>
    intro hall
    obtain ⟨qk, qv⟩ := q
    obtain ⟨d, hd⟩ := Option.isSome_iff_exists.mp
      (hall (qk, qv) (List.mem_cons_self _ _))
    obtain ⟨m, hm, hforall⟩ := ih (fun r hr => hall r (List.mem_cons_of_mem _ hr))
    exact ⟨(qk, d) :: m, by simp [decodeParams, hd, hm],
      List.Forall₂.cons ⟨rfl, hd⟩ hforall⟩

/-- C3: raw captures are decoded independently per key, and the whole set is
accepted or rejected atomically.  If some value fails percent-decoding to
UTF-8, `TryFrom<matchit::Params>` yields `InvalidParamEncoding` carrying the
first offending key, `RequestService::call` aborts dispatch with
`RouteError::Path` before any handler runs — no parameter map, not even a
partial one, is attached — and the rendered response for that error has
status 400.  When every value decodes, the full decoded map is attached to
the dispatched request. -/
theorem param_decoding_atomic (ps : List (String × List Nat)) :
    (∀ pre k v post, ps = pre ++ (k, v) :: post →
      (∀ q ∈ pre, (decodeValue q.2).isSome = true) →
      decodeValue v = none →
      decodeParams ps = .error k ∧
      (∀ (router : RouterModel) (u : Uri) (rt : RouteId),
        router.lookupAt u.path = .ok ⟨rt, ps⟩ →
        routerCall router u = some (.errorResponse (.pathErr k)))) ∧
    ((∀ q ∈ ps, (decodeValue q.2).isSome = true) →
      ∃ m, decodeParams ps = .ok m ∧
        List.Forall₂ (fun q r => q.1 = r.1 ∧ decodeValue q.2 = some r.2)
          ps m ∧
        (∀ (router : RouterModel) (u : Uri) (rt : RouteId),
          router.lookupAt u.path = .ok ⟨rt, ps⟩ →
          routerCall router u = some (.dispatch rt (some m)))) ∧
    (∀ (u : Uri) (k : String), routeErrorReply ⟨u, .param k⟩ =
      some { status := 400, headers := [], body := "" }) := by
  refine ⟨?_, ?_, fun u k => rfl⟩
  · intro pre k v post hps hpre hv
    have herr : decodeParams ps = .error k := by
      rw [hps]
      exact decodeParams_error_of_first_fail pre k v post hpre hv
    refine ⟨herr, fun router u rt hat => ?_⟩
    simp [routerCall, hat, herr]
  · intro hall
    obtain ⟨m, hm, hforall⟩ := decodeParams_ok_of_all ps hall
    refine ⟨m, hm, hforall, fun router u rt hat => ?_⟩
    simp [routerCall, hat, hm]

/-- Witness for C3: captures `a = "A"`, `id = "%FF"`, `b = "B"` — the `%FF`
value percent-decodes to the lone byte 255, which is not UTF-8, so decoding
fails atomically with key `"id"` and a 400 response; captures
`id = "%42"` decode fully to `"B"` and the whole map is attached. -/
theorem param_decoding_atomic_witness :
    decodeParams [("a", [65]), ("id", [37, 70, 70]), ("b", [66])] =
      .error "id" ∧
    routerCall
      ⟨fun _ => .ok ⟨5, [("a", [65]), ("id", [37, 70, 70]), ("b", [66])]⟩,
        some 9⟩ ⟨none, none, "/x", none⟩ =
      some (.errorResponse (.pathErr "id")) ∧
    (∃ m, decodeParams [("id", [37, 52, 50])] = .ok m ∧
      List.Forall₂ (fun q r => q.1 = r.1 ∧ decodeValue q.2 = some r.2)
        [("id", [37, 52, 50])] m ∧
      (∀ (router : RouterModel) (u : Uri) (rt : RouteId),
        router.lookupAt u.path = .ok ⟨rt, [("id", [37, 52, 50])]⟩ →
        routerCall router u = some (.dispatch rt (some m)))) ∧
    routeErrorReply ⟨⟨none, none, "/x", none⟩, .param "id"⟩ =
      some { status := 400, headers := [], body := "" } := by
  have h1 := (param_decoding_atomic
    [("a", [65]), ("id", [37, 70, 70]), ("b", [66])]).1
    [("a", [65])] "id" [37, 70, 70] [("b", [66])] rfl (by decide) (by decide)
  have h2 := (param_decoding_atomic [("id", [37, 52, 50])]).2.1 (by decide)
  exact ⟨h1.1,
    h1.2 ⟨fun _ => .ok ⟨5, [("a", [65]), ("id", [37, 70, 70]), ("b", [66])]⟩,
      some 9⟩ ⟨none, none, "/x", none⟩ 5 rfl,
    h2,
    (param_decoding_atomic []).2.2 ⟨none, none, "/x", none⟩ "id"⟩

/-! Claim C1: deterministic precedence of the path-lookup outcomes. -/

/-- C1: for every built router and request, `RequestService::call` resolves
the trie's verdict with deterministic precedence into exactly one outcome:
an exact match dispatches the bound route with its decoded parameter
captures; an extra-trailing-slash near miss produces the trailing-slash
`Expected` error; a missing-trailing-slash near miss produces the inverse
`Expected` error; and only a total miss falls through to the configured
default route when present, else `RouteError::NotFound`.  The final
conjunct shows the two near-miss outcomes never consult the default route:
the result is identical under any configured default. -/
theorem router_lookup_precedence (router : RouterModel) (u : Uri) :
    (∀ rt ps dps, router.lookupAt u.path = .ok ⟨rt, ps⟩ →
      decodeParams ps = .ok dps →
      routerCall router u = some (.dispatch rt (some dps))) ∧
    (router.lookupAt u.path = .error .extraTrailingSlash →
      ∀ p, stripSlash u.path = some p →
        routerCall router u =
          some (.errorResponse (.expected (replacePath u p)))) ∧
    (router.lookupAt u.path = .error .missingTrailingSlash →
      routerCall router u = some (.errorResponse (.expected
        (replacePath u (strAppend u.path "/"))))) ∧
    (router.lookupAt u.path = .error .notFound →
      routerCall router u = some (match router.defaultRoute with
        | some r => .dispatch r none
        | none => .errorResponse .notFound)) ∧
    (∀ d₁ d₂, (router.lookupAt u.path = .error .extraTrailingSlash ∨
        router.lookupAt u.path = .error .missingTrailingSlash) →
      routerCall ⟨router.lookupAt, d₁⟩ u = routerCall ⟨router.lookupAt, d₂⟩ u) := by
  refine ⟨fun rt ps dps hat hdec => ?_, fun hat p hp => ?_, fun hat => ?_,
    fun hat => ?_, fun d₁ d₂ hat => ?_⟩
  · simp [routerCall, hat, hdec]
  · simp [routerCall, hat, hp]
  · simp [routerCall, hat]
  · cases hd : router.defaultRoute <;> simp [routerCall, hat, hd]
  · rcases hat with hat | hat <;> simp [routerCall, hat]

/-- Witness for C1: a three-pattern trie — `/a` matches exactly (empty
captures), `/b/` is an extra-slash near miss, `/c` a missing-slash near
miss, everything else a total miss — with default route 9; each of the four
outcomes, and the independence of the near miss from the default route. -/
theorem router_lookup_precedence_witness :
    routerCall
      ⟨fun p => if p = "/a" then .ok ⟨1, []⟩
        else if p = "/b/" then .error .extraTrailingSlash
        else if p = "/c" then .error .missingTrailingSlash
        else .error .notFound, some 9⟩ ⟨none, none, "/a", none⟩ =
      some (.dispatch 1 (some [])) ∧
    routerCall
      ⟨fun p => if p = "/a" then .ok ⟨1, []⟩
        else if p = "/b/" then .error .extraTrailingSlash
        else if p = "/c" then .error .missingTrailingSlash
        else .error .notFound, some 9⟩ ⟨none, none, "/b/", none⟩ =
      some (.errorResponse (.expected
        (replacePath ⟨none, none, "/b/", none⟩ "/b"))) ∧
    routerCall
      ⟨fun p => if p = "/a" then .ok ⟨1, []⟩
        else if p = "/b/" then .error .extraTrailingSlash
        else if p = "/c" then .error .missingTrailingSlash
        else .error .notFound, some 9⟩ ⟨none, none, "/c", none⟩ =
      some (.errorResponse (.expected
        (replacePath ⟨none, none, "/c", none⟩ (strAppend "/c" "/")))) ∧
    routerCall
      ⟨fun p => if p = "/a" then .ok ⟨1, []⟩
        else if p = "/b/" then .error .extraTrailingSlash
        else if p = "/c" then .error .missingTrailingSlash
        else .error .notFound, some 9⟩ ⟨none, none, "/nope", none⟩ =
      some (.dispatch 9 none) ∧
    routerCall
      ⟨fun p => if p = "/a" then .ok ⟨1, []⟩
        else if p = "/b/" then .error .extraTrailingSlash
        else if p = "/c" then .error .missingTrailingSlash
        else .error .notFound, some 9⟩ ⟨none, none, "/b/", none⟩ =
    routerCall
      ⟨fun p => if p = "/a" then .ok ⟨1, []⟩
        else if p = "/b/" then .error .extraTrailingSlash
        else if p = "/c" then .error .missingTrailingSlash
        else .error .notFound, none⟩ ⟨none, none, "/b/", none⟩ := by
  have h := router_lookup_precedence
    ⟨fun p => if p = "/a" then .ok ⟨1, []⟩
      else if p = "/b/" then .error .extraTrailingSlash
      else if p = "/c" then .error .missingTrailingSlash
      else .error .notFound, some 9⟩
  refine ⟨(h ⟨none, none, "/a", none⟩).1 1 [] [] (by simp) rfl,
    (h ⟨none, none, "/b/", none⟩).2.1 (by simp) "/b" (by decide),
    (h ⟨none, none, "/c", none⟩).2.2.1 (by simp),
    (h ⟨none, none, "/nope", none⟩).2.2.2.1 (by simp),
    (h ⟨none, none, "/b/", none⟩).2.2.2.2 (some 9) none (Or.inl (by simp))⟩

/-! Claim C9: the dispatch future yields exactly once. -/

theorem runPolls_route_pending {Res : Type} (v : Res) :
    ∀ k n, k < n → runPolls (RequestFuture.route (some (n, v))) k =
      some (.pending, .route (some (n - k - 1, v))) := by
  intro k
  induction k with
  | zero =>
    intro n hn
    obtain ⟨m, rfl⟩ := Nat.exists_eq_succ_of_ne_zero (Nat.pos_iff_ne_zero.mp hn)
    simp [runPolls, requestFuturePoll, pollInner]
  | succ k ih =>
    intro n hn
    obtain ⟨m, rfl⟩ := Nat.exists_eq_succ_of_ne_zero
      (Nat.pos_iff_ne_zero.mp (Nat.lt_of_le_of_lt (Nat.zero_le _) hn))
    have hk : k < m := by omega
    have harith : m + 1 - (k + 1) - 1 = m - k - 1 := by omega
    simp only [runPolls, requestFuturePoll, pollInner, harith]
    exact ih m hk

theorem runPolls_route_ready {Res : Type} (n : Nat) (v : Res) :
    runPolls (RequestFuture.route (some (n, v))) n =
      some (.ready v, .route none) := by
  induction n with
  | zero => rfl
  | succ n ih => simpa [runPolls, requestFuturePoll, pollInner] using ih

theorem runPolls_route_completed {Res : Type} (k : Nat) :
    runPolls (RequestFuture.route (none : Option (Nat × Res))) k = none := by
  cases k <;> simp [runPolls, requestFuturePoll, pollInner]

theorem runPolls_response_taken {Res : Type} (k : Nat) :
    runPolls (RequestFuture.response (none : Option Res)) k = none := by
  cases k <;> simp [runPolls, requestFuturePoll]

theorem runPolls_route_after {Res : Type} (n : Nat) (v : Res) :
    ∀ j, runPolls (RequestFuture.route (some (n, v))) (n + j + 1) = none := by
  induction n with
  | zero =>
    intro j
    simp [runPolls, requestFuturePoll, pollInner, runPolls_route_completed]
  | succ n ih =>
    intro j
    have harith : n + 1 + j + 1 = (n + j + 1) + 1 := by omega
    rw [harith]
    simpa [runPolls, requestFuturePoll, pollInner] using ih j

/-- C9: the dispatch future yields its response exactly once.  In the
`Route` state, poll `k < n` of a handler future needing `n + 1` polls is
`Pending` (forwarded), poll `n` yields the handler's response, and every
later poll panics (modelled `none`: the completed inner future's
resumed-after-completion contract violation).  In the `Response` state the
first poll yields the held response and consumes it, and every later poll
panics (`"future polled after completion"`). -/
theorem request_future_yields_once {Res : Type} (n : Nat) (v : Res) :
    (∀ k, k < n → ∃ s, runPolls (RequestFuture.route (some (n, v))) k =
      some (.pending, s)) ∧
    runPolls (RequestFuture.route (some (n, v))) n =
      some (.ready v, .route none) ∧
    (∀ k, n < k → runPolls (RequestFuture.route (some (n, v))) k = none) ∧
    requestFuturePoll (RequestFuture.response (some v)) =
      some (.ready v, .response none) ∧
    (∀ k, 1 ≤ k → runPolls (RequestFuture.response (some v)) k = none) := by
  refine ⟨fun k hk => ⟨_, runPolls_route_pending v k n hk⟩,
    runPolls_route_ready n v, fun k hk => ?_, rfl, fun k hk => ?_⟩
  · obtain ⟨j, rfl⟩ : ∃ j, k = n + j + 1 := ⟨k - n - 1, by omega⟩
    exact runPolls_route_after n v j
  · obtain ⟨j, rfl⟩ : ∃ j, k = j + 1 := ⟨k - 1, by omega⟩
    simp [runPolls, requestFuturePoll, runPolls_response_taken]

/-- Witness for C9: a handler future needing three polls (`n = 2`) is
pending at poll 0, ready with its response at poll 2, and panics at poll 3;
an immediate response is yielded on the first poll and panics on the
second. -/
theorem request_future_yields_once_witness :
    (0 < 2 ∧ ∃ s, runPolls (RequestFuture.route (some (2, (7 : Nat)))) 0 =
      some (.pending, s)) ∧
    runPolls (RequestFuture.route (some (2, (7 : Nat)))) 2 =
      some (.ready 7, .route none) ∧
    runPolls (RequestFuture.route (some (2, (7 : Nat)))) 3 = none ∧
    requestFuturePoll (RequestFuture.response (some (7 : Nat))) =
      some (.ready 7, .response none) ∧
    runPolls (RequestFuture.response (some (7 : Nat))) 1 = none :=
  ⟨⟨by decide, (request_future_yields_once 2 (7 : Nat)).1 0 (by decide)⟩,
   (request_future_yields_once 2 (7 : Nat)).2.1,
   (request_future_yields_once 2 (7 : Nat)).2.2.1 3 (by decide),
   (request_future_yields_once 2 (7 : Nat)).2.2.2.1,
   (request_future_yields_once 2 (7 : Nat)).2.2.2.2 1 (by decide)⟩

end Routerman
